import Mathlib

/-!
# Verification of imgfix (src/src/main.rs)

A shallow embedding of the imgfix tool: it sniffs the true image format of each
input file from its bytes, compares the result with the file's current
extension, and either suggests the preferred extension (default) or renames the
file (`--force`).

File contents are modelled as `List Nat` (byte values), the filesystem as a
function `String → Option (List Nat)` from path strings to contents, and the
process state carries that filesystem plus the lines written to stdout/stderr.
The third-party pieces (the `image` crate's format registry and signature
sniffer, Rust std `Path` methods) are not part of the repository source; they
are modelled from the spec and from the documented std `Path` semantics, each
with a doc comment saying so.
-/

namespace Imgfix

/-! ## Strings and paths -/

/-- Split a list of characters at the LAST occurrence of `c`, returning the
part before and the part after; `none` when `c` does not occur.  This is the
behavior of Rust `str::rsplit_once` as used by `read_extension`. -/
def rsplitOnceList (c : Char) : List Char → Option (List Char × List Char)
  | [] => none
  | x :: xs =>
    match rsplitOnceList c xs with
    | some (a, b) => some (x :: a, b)
    | none => if x = c then some ([], xs) else none

/-- Split a list of characters on every occurrence of `c` (Rust
`str::split`-style: the empty input yields one empty segment). -/
def splitOnChar (c : Char) : List Char → List (List Char)
  | [] => [[]]
  | x :: xs =>
    match splitOnChar c xs with
    | [] => [[x]]
    | y :: ys => if x = c then [] :: y :: ys else (x :: y) :: ys

/-- The raw segments of a path string, split on `/`. -/
def pathSegments (p : String) : List String :=
  (splitOnChar '/' p.toList).map (fun cs => String.mk cs)

/-- The final raw segment of a path string (the text after the last `/`, or
the whole string when there is no `/`). -/
def finalSegment (p : String) : String :=
  (pathSegments p).getLastD p

/-- Modelled from Rust std `Path::file_name`: the last normal component of the
path — empty components and `.` components are skipped; the result is `none`
when the path ends in `..` or has no normal component at all. -/
def file_name (p : String) : Option String :=
  match ((pathSegments p).filter (fun c => !(c == "") && !(c == "."))).getLast? with
  | none => none
  | some c => if c == ".." then none else some c

/-- Modelled from Rust std (private helper `split_file_at_dot`, which backs
`Path::file_stem` / `Path::extension`): a file name splits at its last dot
into stem and extension, except that `..` and names whose only dot is the
leading character (hidden files) have no extension. -/
def splitFileAtDot (f : String) : String × Option String :=
  if f == ".." then (f, none)
  else
    match rsplitOnceList '.' f.toList with
    | none => (f, none)
    | some (st, ex) =>
      if st = [] then (f, none) else (String.mk st, some (String.mk ex))

/-- Modelled from Rust std `Path::with_extension` (for paths with no trailing
separator, which is every path this program renames): when the path has a file
name, everything from that file name's stem onward is replaced by
`stem ++ "." ++ ext`; a path with no file name is returned unchanged. -/
def with_extension (p : String) (ext : String) : String :=
  match file_name p with
  | none => p
  | some f =>
    let stem := (splitFileAtDot f).1
    String.mk (p.toList.take (p.toList.length - f.toList.length)) ++ stem ++ "." ++ ext

/-! ## The image format registry (third-party `image` crate) -/

/-- Modelled from the spec: `DetectedFormat`, "an enumerated value identifying
a known image encoding (e.g. PNG, JPEG, GIF, BMP, WEBP, etc.), derived purely
from file content".  In the source this is `image::ImageFormat`, which is not
part of this repository. -/
inductive ImageFormat where
  | png
  | jpeg
  | gif
  | webp
  | bmp
  deriving DecidableEq, Repr

/-- Modelled from the spec: the `ExtensionSet` registry, "the ordered,
non-empty sequence of extension strings recognized as valid for a given
DetectedFormat; first element is the canonical/preferred extension"
(`ImageFormat::extensions_str` in the `image` crate, not part of this
repository). -/
def ImageFormat.extensions_str : ImageFormat → List String
  | .png => ["png"]
  | .jpeg => ["jpg", "jpeg"]
  | .gif => ["gif"]
  | .webp => ["webp"]
  | .bmp => ["bmp"]

/-- Modelled from the spec: the Format Sniffer's classifier
(`image::guess_format`, not part of this repository) — "classify it by
recognizing known image container signatures", returning `none` for content
matching no known signature.  Signatures are the standard magic bytes of each
format. -/
def ImageFormat.guess (buf : List Nat) : Option ImageFormat :=
  if buf.take 8 = [0x89, 0x50, 0x4E, 0x47, 0x0D, 0x0A, 0x1A, 0x0A] then some .png
  else if buf.take 3 = [0xFF, 0xD8, 0xFF] then some .jpeg
  else if buf.take 4 = [0x47, 0x49, 0x46, 0x38] then some .gif
  else if buf.take 4 = [0x52, 0x49, 0x46, 0x46] ∧
          ((buf.drop 8).take 4 = [0x57, 0x45, 0x42, 0x50]) then some .webp
  else if buf.take 2 = [0x42, 0x4D] then some .bmp
  else none

/-! ## Errors (enum `Error` in main.rs) -/

/-- The error enum of main.rs: `Image(BadImage)` carries the offending path and
the underlying image-library error (modelled by its display text), `Io` wraps
an I/O error (modelled by its display text), `BadExtension` carries the path
with no usable extension. -/
inductive Error where
  | image (path : String) (msg : String)
  | io (msg : String)
  | badExtension (path : String)
  deriving DecidableEq, Repr

/-- The display text of each error, per the `thiserror` attributes in main.rs:
`Image` is transparent to `BadImage`, whose `Display` is `"{error} ({path})"`;
`Io` is transparent to the wrapped I/O error; `BadExtension` displays as
`"no usable extension: {path}"`. -/
def Error.display : Error → String
  | .image path msg => msg ++ " (" ++ path ++ ")"
  | .io msg => msg
  | .badExtension path => "no usable extension: " ++ path

/-! ## The functions of main.rs -/

/-- `read_extension` from main.rs: `path.rsplit_once('.')`, keeping the part
after the last `.` of the whole path string, or `Error::BadExtension(path)`
when the path contains no `.` at all. -/
def read_extension (path : String) : Except Error String :=
  match rsplitOnceList '.' path.toList with
  | some (_stem, extension) => .ok (String.mk extension)
  | none => .error (.badExtension path)

/-- `preferred_extension` from main.rs before the `unwrap`:
`format.extensions_str().first()`. -/
def preferred_extension? (format : ImageFormat) : Option String :=
  format.extensions_str.head?

/-- `preferred_extension` from main.rs: the first entry of the format's
extension list.  The source `unwrap`s the `Option`; `C7_registry_nonempty`
proves the `Option` is `some` for every format, so the panic branch is
unreachable and is modelled by `getD ""`. -/
def preferred_extension (format : ImageFormat) : String :=
  (preferred_extension? format).getD ""

/-- ASCII-case-insensitive string equality, the comparison of
`uncased::UncasedStr` used by `is_allowed_extension`. -/
def uncasedEq (a b : String) : Bool :=
  a.toList.map Char.toLower == b.toList.map Char.toLower

/-- `is_allowed_extension` from main.rs: the extension, compared
case-insensitively, equals some entry of the format's extension list. -/
def is_allowed_extension (extension : String) (format : ImageFormat) : Bool :=
  format.extensions_str.any (fun ext => uncasedEq ext extension)

/-- `display_filename` from main.rs: the path's file name, falling back to the
whole path string when `file_name` returns `None`. -/
def display_filename (p : String) : String :=
  (file_name p).getD p

/-! ## Filesystem and process state -/

/-- The filesystem: each path either holds a file with the given bytes or
nothing readable. -/
def FS : Type := String → Option (List Nat)

/-- Process state: the filesystem plus the lines printed so far to stdout
(`println!`) and stderr (`eprintln!`). -/
structure State where
  fs : String → Option (List Nat)
  stdout : List String
  stderr : List String

/-- `guess_format` from main.rs: `fs::read` the path (an unreadable path is an
`Io` error, modelled with the usual missing-file message), then classify the
bytes; unknown content is `Error::bad_image(path, e)` with the image library's
unknown-format message. -/
def guess_format (fs : String → Option (List Nat)) (path : String) :
    Except Error ImageFormat :=
  match fs path with
  | none => .error (.io "No such file or directory (os error 2)")
  | some buffer =>
    match ImageFormat.guess buffer with
    | some format => .ok format
    | none => .error (.image path "The image format could not be determined")

/-- `fs::rename` (Rust std, modelled): fails when the source does not exist;
otherwise the destination now holds the source's bytes, the source is gone,
and every other path is untouched. -/
def rename (fs : String → Option (List Nat)) (src dst : String) :
    Except Error (String → Option (List Nat)) :=
  match fs src with
  | none => .error (.io "No such file or directory (os error 2)")
  | some buffer =>
    .ok (fun p => if p == dst then some buffer else if p == src then none else fs p)

/-- One iteration of the `for path in args.paths()` loop body of `run` in
main.rs, as a state transformer: the returned `Option Error` is `some e` when
the iteration propagates a fatal error (the `?` operators), `none` when it
completes (including the lenient warn-and-continue on a sniffing failure). -/
def processPath (force : Bool) (path : String) (s : State) : State × Option Error :=
  match read_extension path with
  | .error e => (s, some e)
  | .ok extension =>
    match guess_format s.fs path with
    | .error e => ({ s with stderr := s.stderr ++ ["warning: " ++ e.display] }, none)
    | .ok format =>
      if !(is_allowed_extension extension format) then
        if force then
          let dst := with_extension path (preferred_extension format)
          match rename s.fs path dst with
          | .error e => (s, some e)
          | .ok fs' =>
            ({ s with fs := fs', stdout := s.stdout ++ [display_filename dst] }, none)
        else
          ({ s with
              stdout := s.stdout ++
                [display_filename path ++ " -> " ++ preferred_extension format] },
            none)
      else (s, none)

/-- `run` from main.rs: process the paths in order, stopping at the first
fatal error. -/
def run (force : Bool) : List String → State → State × Option Error
  | [], s => (s, none)
  | path :: rest, s =>
    match processPath force path s with
    | (s', none) => run force rest s'
    | (s', some e) => (s', some e)

/-- `main` from main.rs: run; on `Err(e)`, `eprintln!("{e}")` then
`process::exit(1)`; otherwise the process ends with exit code 0.  Returns the
exit code and the final state. -/
def main (force : Bool) (paths : List String) (s : State) : Nat × State :=
  match run force paths s with
  | (s', none) => (0, s')
  | (s', some e) => (1, { s' with stderr := s'.stderr ++ [e.display] })

/-! ## Concrete data used to exercise the theorems -/

/-- The 8-byte PNG signature. -/
def pngBytes : List Nat := [0x89, 0x50, 0x4E, 0x47, 0x0D, 0x0A, 0x1A, 0x0A]

/-- The first bytes of a GIF file (`GIF89a`). -/
def gifBytes : List Nat := [0x47, 0x49, 0x46, 0x38, 0x39, 0x61]

/-- A filesystem holding PNG-content files named `photo.PNG` and `photo.png`. -/
def fsPhoto : String → Option (List Nat) := fun p =>
  if p == "photo.PNG" then some pngBytes
  else if p == "photo.png" then some pngBytes
  else none

/-- Initial state over `fsPhoto` with empty stdout/stderr. -/
def statePhoto : State := { fs := fsPhoto, stdout := [], stderr := [] }

/-- A filesystem holding one PNG-content file named `a.jpg`. -/
def fsA : String → Option (List Nat) := fun p =>
  if p == "a.jpg" then some pngBytes else none

/-- Initial state over `fsA` with empty stdout/stderr. -/
def stateA : State := { fs := fsA, stdout := [], stderr := [] }

/-- A filesystem holding a file of unrecognizable bytes named `junk.dat`. -/
def fsJunk : String → Option (List Nat) := fun p =>
  if p == "junk.dat" then some [0, 1, 2] else none

/-- Initial state over `fsJunk` with empty stdout/stderr. -/
def stateJunk : State := { fs := fsJunk, stdout := [], stderr := [] }

/-- An empty filesystem: no path is readable. -/
def stateEmpty : State := { fs := fun _ => none, stdout := [], stderr := [] }

/-- A filesystem for a batch run: a PNG-content `a.jpg` and a GIF-content
`b.gif`. -/
def fsBatch : String → Option (List Nat) := fun p =>
  if p == "a.jpg" then some pngBytes
  else if p == "b.gif" then some gifBytes
  else none

/-- Initial state over `fsBatch` with empty stdout/stderr. -/
def stateBatch : State := { fs := fsBatch, stdout := [], stderr := [] }

/-- The state after the forced run has processed `a.jpg` (renaming it to
`a.png`). -/
def stateBatch' : State := (run true ["a.jpg"] stateBatch).1

/-! ## Helper lemmas -/

/-- When a character does not occur in the list, splitting at its last
occurrence finds nothing. -/
theorem rsplitOnceList_eq_none_of_not_mem {c : Char} :
    ∀ {cs : List Char}, c ∉ cs → rsplitOnceList c cs = none
  | [], _ => rfl
  | x :: xs, h => by
    have hxs : c ∉ xs := fun m => h (List.mem_cons_of_mem x m)
    have hx : ¬(x = c) := fun e => h (by rw [← e]; exact List.mem_cons_self x xs)
    rw [rsplitOnceList, rsplitOnceList_eq_none_of_not_mem hxs]
    simp [hx]

/-- Unfolding `run` on a nonempty path list. -/
theorem run_cons (force : Bool) (p : String) (ps : List String) (s : State) :
    run force (p :: ps) s =
      match processPath force p s with
      | (s', none) => run force ps s'
      | (s', some e) => (s', some e) := rfl

/-- A run that completes a first batch of paths without a fatal error
continues from the state that batch produced. -/
theorem run_append_of_ok (force : Bool) :
    ∀ (ps1 ps2 : List String) (s s1 : State),
      run force ps1 s = (s1, none) → run force (ps1 ++ ps2) s = run force ps2 s1 := by
  intro ps1
  induction ps1 with
  | nil =>
    intro ps2 s s1 h
    have hs : s = s1 := congrArg Prod.fst h
    subst hs
    rfl
  | cons p ps ih =>
    intro ps2 s s1 h
    rw [List.cons_append, run_cons]
    rw [run_cons] at h
    cases hp : processPath force p s with
    | mk s' oe =>
      rw [hp] at h
      cases oe with
      | none => exact ih ps2 s' s1 h
      | some e => exact Option.noConfusion (congrArg Prod.snd h)

/-! ## The claims -/

/-- C1: when the current extension case-insensitively matches the detected
format's extension set, the loop body is a no-op — the state (filesystem,
stdout, stderr) is returned unchanged and no error is raised, for either value
of the force flag. -/
theorem C1_matching_extension_noop (force : Bool) (path : String) (s : State)
    (extension : String) (format : ImageFormat)
    (hext : read_extension path = .ok extension)
    (hfmt : guess_format s.fs path = .ok format)
    (hallowed : is_allowed_extension extension format = true) :
    processPath force path s = (s, none) := by
  unfold processPath
  rw [hext, hfmt]
  simp [hallowed]

/-- C1 witness: `photo.PNG` with PNG-signature bytes is a no-op with and
without force, identically to `photo.png`. -/
theorem C1_witness :
    read_extension "photo.PNG" = .ok "PNG" ∧
    guess_format statePhoto.fs "photo.PNG" = .ok .png ∧
    is_allowed_extension "PNG" .png = true ∧
    processPath true "photo.PNG" statePhoto = (statePhoto, none) ∧
    processPath false "photo.PNG" statePhoto = (statePhoto, none) ∧
    processPath false "photo.png" statePhoto = (statePhoto, none) :=
  ⟨rfl, rfl, by decide,
   C1_matching_extension_noop true "photo.PNG" statePhoto "PNG" .png rfl rfl (by decide),
   C1_matching_extension_noop false "photo.PNG" statePhoto "PNG" .png rfl rfl (by decide),
   C1_matching_extension_noop false "photo.png" statePhoto "png" .png rfl rfl (by decide)⟩

/-- C2: on a mismatched extension without force, exactly the line
`"<basename> -> <preferred extension>"` is appended to stdout and nothing else
changes — in particular the filesystem is untouched. -/
theorem C2_suggest_line (path : String) (s : State) (extension b : String)
    (format : ImageFormat)
    (hext : read_extension path = .ok extension)
    (hfmt : guess_format s.fs path = .ok format)
    (hmis : is_allowed_extension extension format = false)
    (hname : file_name path = some b) :
    processPath false path s =
      ({ s with stdout := s.stdout ++ [b ++ " -> " ++ preferred_extension format] },
        none) := by
  unfold processPath
  rw [hext, hfmt]
  simp [hmis, display_filename, hname]

/-- C2 witness: `a.jpg` holding PNG-signature bytes, force off, prints exactly
`"a.jpg -> png"` and leaves the filesystem unchanged. -/
theorem C2_witness :
    read_extension "a.jpg" = .ok "jpg" ∧
    guess_format stateA.fs "a.jpg" = .ok .png ∧
    is_allowed_extension "jpg" .png = false ∧
    file_name "a.jpg" = some "a.jpg" ∧
    processPath false "a.jpg" stateA =
      ({ stateA with stdout := ["a.jpg -> png"] }, none) :=
  ⟨rfl, rfl, by decide, by decide,
   C2_suggest_line "a.jpg" stateA "jpg" "a.jpg" .png rfl rfl (by decide) (by decide)⟩

/-- C3: on a mismatched extension with force, the file is renamed to
`with_extension path preferred` (same directory and stem, extension replaced
by the format's preferred extension): the loop body succeeds, the new path's
basename is the one line appended to stdout, the original path no longer
exists, the new path holds the original bytes, and every other path is
untouched. -/
theorem C3_force_rename (path : String) (s : State) (extension b' : String)
    (buffer : List Nat) (format : ImageFormat)
    (hext : read_extension path = .ok extension)
    (hbuf : s.fs path = some buffer)
    (hfmt : ImageFormat.guess buffer = some format)
    (hmis : is_allowed_extension extension format = false)
    (hne : with_extension path (preferred_extension format) ≠ path)
    (hb' : file_name (with_extension path (preferred_extension format)) = some b') :
    processPath true path s =
      ({ s with
          fs := fun p =>
            if p == with_extension path (preferred_extension format) then some buffer
            else if p == path then none else s.fs p,
          stdout := s.stdout ++ [b'] },
        none) ∧
    (processPath true path s).1.fs path = none ∧
    (processPath true path s).1.fs (with_extension path (preferred_extension format)) =
      some buffer ∧
    (∀ q : String, q ≠ path → q ≠ with_extension path (preferred_extension format) →
      (processPath true path s).1.fs q = s.fs q) := by
  have hg : guess_format s.fs path = .ok format := by
    unfold guess_format
    rw [hbuf]
    simp [hfmt]
  have hmain : processPath true path s =
      ({ s with
          fs := fun p =>
            if p == with_extension path (preferred_extension format) then some buffer
            else if p == path then none else s.fs p,
          stdout := s.stdout ++ [b'] },
        none) := by
    unfold processPath
    rw [hext, hg]
    simp [hmis, rename, hbuf, display_filename, hb']
  refine ⟨hmain, ?_, ?_, ?_⟩
  · rw [hmain]
    simp [Ne.symm hne]
  · rw [hmain]
    simp
  · intro q hq hq'
    rw [hmain]
    simp [hq, hq']

/-- C3 witness: `a.jpg` holding PNG-signature bytes, force on: renamed to
`a.png` (original gone, bytes preserved, `b.gif`-style bystanders untouched)
and `a.png` is printed. -/
theorem C3_witness :
    read_extension "a.jpg" = .ok "jpg" ∧
    stateA.fs "a.jpg" = some pngBytes ∧
    ImageFormat.guess pngBytes = some .png ∧
    is_allowed_extension "jpg" .png = false ∧
    with_extension "a.jpg" (preferred_extension .png) = "a.png" ∧
    (processPath true "a.jpg" stateA).1.fs "a.jpg" = none ∧
    (processPath true "a.jpg" stateA).1.fs "a.png" = some pngBytes ∧
    (processPath true "a.jpg" stateA).1.stdout = ["a.png"] ∧
    (processPath true "a.jpg" stateA).2 = none := by
  have h := C3_force_rename "a.jpg" stateA "jpg" "a.png" pngBytes .png rfl rfl
    (by decide) (by decide) (by decide) (by decide)
  refine ⟨rfl, rfl, rfl, by decide, by decide, h.2.1, ?_, ?_, ?_⟩
  · have := h.2.2.1
    simpa using this
  · rw [h.1]
    rfl
  · rw [h.1]

/-- C4: the lenient sniffing policy — when format sniffing fails (unreadable
file or unknown signature), the loop body appends one `warning:` line to
stderr, touches nothing else, raises no error, and the run continues with the
remaining paths as if from that state, with identical exit behavior. -/
theorem C4_lenient_skip (force : Bool) (path : String) (rest : List String)
    (s : State) (extension : String) (e : Error)
    (hext : read_extension path = .ok extension)
    (hfail : guess_format s.fs path = .error e) :
    processPath force path s =
      ({ s with stderr := s.stderr ++ ["warning: " ++ e.display] }, none) ∧
    run force (path :: rest) s =
      run force rest { s with stderr := s.stderr ++ ["warning: " ++ e.display] } ∧
    main force (path :: rest) s =
      main force rest { s with stderr := s.stderr ++ ["warning: " ++ e.display] } := by
  have h1 : processPath force path s =
      ({ s with stderr := s.stderr ++ ["warning: " ++ e.display] }, none) := by
    unfold processPath
    rw [hext, hfail]
  have h2 : run force (path :: rest) s =
      run force rest { s with stderr := s.stderr ++ ["warning: " ++ e.display] } := by
    rw [run_cons, h1]
  refine ⟨h1, h2, ?_⟩
  unfold main
  rw [h2]

/-- C4 witness: `junk.dat` holds bytes matching no signature and
`missing.png` is unreadable; each produces one warning line, no error, and
the run goes on. -/
theorem C4_witness :
    guess_format stateJunk.fs "junk.dat" =
      .error (.image "junk.dat" "The image format could not be determined") ∧
    processPath false "junk.dat" stateJunk =
      ({ stateJunk with
          stderr := ["warning: The image format could not be determined (junk.dat)"] },
        none) ∧
    main false ["junk.dat"] stateJunk =
      main false []
        { stateJunk with
            stderr := ["warning: The image format could not be determined (junk.dat)"] } ∧
    guess_format stateEmpty.fs "missing.png" =
      .error (.io "No such file or directory (os error 2)") ∧
    processPath true "missing.png" stateEmpty =
      ({ stateEmpty with
          stderr := ["warning: No such file or directory (os error 2)"] },
        none) := by
  have h1 := C4_lenient_skip false "junk.dat" [] stateJunk "dat"
    (.image "junk.dat" "The image format could not be determined") rfl rfl
  have h2 := C4_lenient_skip true "missing.png" [] stateEmpty "png"
    (.io "No such file or directory (os error 2)") rfl rfl
  exact ⟨rfl, h1.1, h1.2.2, rfl, h2.1⟩

/-- C5 counterexample: the claim says every path with no `.` in its final
path segment fails extension extraction, but `read_extension` splits the
WHOLE path string at its last `.`: for `a.b/c` the final segment `c` has no
dot, yet extraction succeeds (with the extension `b/c` taken from the
directory part), and processing proceeds to format sniffing (here a lenient
warning, not a fatal error). -/
theorem C5_counterexample :
    finalSegment "a.b/c" = "c" ∧
    '.' ∉ ("c").toList ∧
    read_extension "a.b/c" = .ok "b/c" ∧
    (processPath false "a.b/c" stateEmpty).2 = none := by
  exact ⟨rfl, by decide, rfl, rfl⟩

/-- C5 (amended): for every path whose WHOLE string contains no `.`,
extension extraction fails with `BadExtension` naming the path, and the error
is fatal for the whole run regardless of the force flag: the run stops at
that path with the error (no sniffing, no later paths) and the process exits
with code 1. -/
theorem C5_no_dot_fatal (force : Bool) (path : String) (rest : List String)
    (s : State) (h : '.' ∉ path.toList) :
    read_extension path = .error (.badExtension path) ∧
    run force (path :: rest) s = (s, some (.badExtension path)) ∧
    main force (path :: rest) s =
      (1, { s with stderr := s.stderr ++ ["no usable extension: " ++ path] }) := by
  have h1 : read_extension path = .error (.badExtension path) := by
    unfold read_extension
    rw [rsplitOnceList_eq_none_of_not_mem h]
  have h2 : processPath force path s = (s, some (.badExtension path)) := by
    unfold processPath
    rw [h1]
  have h3 : run force (path :: rest) s = (s, some (.badExtension path)) := by
    rw [run_cons, h2]
  refine ⟨h1, h3, ?_⟩
  unfold main
  rw [h3]
  rfl

/-- C5 witness: `noext` aborts the whole run with exit code 1 and the
`no usable extension: noext` message, with the later path `b.gif` never
processed. -/
theorem C5_witness :
    '.' ∉ ("noext").toList ∧
    read_extension "noext" = .error (.badExtension "noext") ∧
    run true ["noext", "b.gif"] stateBatch =
      (stateBatch, some (.badExtension "noext")) ∧
    main true ["noext", "b.gif"] stateBatch =
      (1, { stateBatch with stderr := ["no usable extension: noext"] }) := by
  have h := C5_no_dot_fatal true "noext" ["b.gif"] stateBatch (by decide)
  exact ⟨by decide, h.1, h.2.1, h.2.2⟩

/-- C6: for every detected format, the preferred (first) extension of its
extension set is itself accepted by the case-insensitive membership test for
that format. -/
theorem C6_preferred_is_allowed (format : ImageFormat) :
    is_allowed_extension (preferred_extension format) format = true := by
  cases format <;> decide

/-- C7: every detected format maps to a non-empty extension set, so the
`Option` that `preferred_extension` unwraps is `some` for every format the
sniffer can return — the unwrap never panics. -/
theorem C7_registry_nonempty (format : ImageFormat) :
    format.extensions_str ≠ [] ∧ (preferred_extension? format).isSome = true := by
  cases format <;> exact ⟨by decide, by decide⟩

/-- C8: the process exits with code 0 exactly when the run completes without a
fatal error (the final state is returned as is, warnings from skipped paths
included); on a fatal error the exit code is 1 and the error's display text is
the last line appended to stderr. -/
theorem C8_exit_codes (force : Bool) (paths : List String) (s : State) :
    (∀ s' : State, run force paths s = (s', none) → main force paths s = (0, s')) ∧
    (∀ (s' : State) (e : Error), run force paths s = (s', some e) →
      main force paths s = (1, { s' with stderr := s'.stderr ++ [e.display] })) := by
  constructor
  · intro s' h
    unfold main
    rw [h]
  · intro s' e h
    unfold main
    rw [h]

/-- C8 witness: a completed run (a matching `photo.PNG`, nothing to do) exits
0; a run hitting the fatal `noext` exits 1 with the message on stderr. -/
theorem C8_witness :
    run false ["photo.PNG"] statePhoto = (statePhoto, none) ∧
    main false ["photo.PNG"] statePhoto = (0, statePhoto) ∧
    run false ["noext"] statePhoto = (statePhoto, some (.badExtension "noext")) ∧
    main false ["noext"] statePhoto =
      (1, { statePhoto with stderr := statePhoto.stderr ++ ["no usable extension: noext"] }) :=
  ⟨rfl,
   (C8_exit_codes false ["photo.PNG"] statePhoto).1 statePhoto rfl,
   rfl,
   (C8_exit_codes false ["noext"] statePhoto).2 statePhoto (.badExtension "noext") rfl⟩

/-- C9: when a fatal error occurs partway through the input list, the run
returns that error and the state reached so far: the paths after the failing
one are never processed, and the state — including every rename already
performed for earlier paths — is kept as is, with no rollback. -/
theorem C9_fatal_stops_run (force : Bool) (ps1 : List String) (badp : String)
    (ps2 : List String) (s s1 s1' : State) (e : Error)
    (h1 : run force ps1 s = (s1, none))
    (h2 : processPath force badp s1 = (s1', some e)) :
    run force (ps1 ++ badp :: ps2) s = (s1', some e) := by
  rw [run_append_of_ok force ps1 (badp :: ps2) s s1 h1, run_cons, h2]

/-- C9 witness: forced run over `a.jpg` (renamed to `a.png`), then the fatal
`noext`, then `b.gif`: the run stops with the `noext` error, `b.gif` is left
exactly as it was (never processed), and `a.jpg` stays renamed — `a.png`
holds its bytes and `a.jpg` is gone. -/
theorem C9_witness :
    run true ["a.jpg"] stateBatch = (stateBatch', none) ∧
    processPath true "noext" stateBatch' = (stateBatch', some (.badExtension "noext")) ∧
    run true (["a.jpg"] ++ "noext" :: ["b.gif"]) stateBatch =
      (stateBatch', some (.badExtension "noext")) ∧
    stateBatch'.fs "a.jpg" = none ∧
    stateBatch'.fs "a.png" = some pngBytes ∧
    stateBatch'.stdout = ["a.png"] ∧
    stateBatch'.fs "b.gif" = some gifBytes :=
  ⟨rfl, rfl,
   C9_fatal_stops_run true ["a.jpg"] "noext" ["b.gif"] stateBatch stateBatch'
     stateBatch' (.badExtension "noext") rfl rfl,
   by decide, by decide, rfl, by decide⟩

/-- C10: when a path's final component cannot be extracted as a file name
(`file_name` is `none`, e.g. a path ending in `..`), the display function
used for every stdout line falls back to the entire path string. -/
theorem C10_display_fallback (p : String) (h : file_name p = none) :
    display_filename p = p := by
  unfold display_filename
  rw [h]
  rfl

/-- C10 witness: `foo/..` has no extractable file name and is displayed as the
whole string `foo/..`. -/
theorem C10_witness :
    file_name "foo/.." = none ∧ display_filename "foo/.." = "foo/.." :=
  ⟨by decide, C10_display_fallback "foo/.." (by decide)⟩

end Imgfix
